import Mathlib

/-!
Shallow embedding of the metrics-aggregation pipeline of the multi-cell 5G
experiment driver (nr_multi_cell_optimized.cc).  IEEE doubles are embedded as
rationals; the transcendental library calls (cos, sin, log10) and the pi
constant are abstracted as function parameters, since every claim treated here
is independent of their values.  The unsigned FlowMonitor packet counters are
32-bit, so their subtraction is embedded as natural-number arithmetic modulo
2^32, zero-extended into the 64-bit result variable.
-/

namespace NrMultiCell

/-- Per-UE channel accumulator, mirroring struct ChannelMetrics with its
field initializers. -/
structure ChannelMetrics where
  sumSinrDb : ℚ := 0
  sumRsrpDbm : ℚ := 0
  sumRsrqDb : ℚ := 0
  samples : ℕ := 0
  maxSinr : ℚ := -1000
  minSinr : ℚ := 1000
deriving DecidableEq

/-- The default-constructed ChannelMetrics, as produced by the global map's
operator[] for a UE that has not yet received any sample. -/
def initialChannelMetrics : ChannelMetrics := {}

/-- State touched by EnhancedSinrCallback for one UE: its ChannelMetrics entry
and its SINR history vector. -/
structure SinrState where
  metrics : ChannelMetrics
  history : List ℚ
deriving DecidableEq

/-- State of a UE before any callback fired: default metrics, empty history. -/
def initialSinrState : SinrState := ⟨{}, []⟩

/-- EnhancedSinrCallback (lines 66-84): if the linear SINR is positive, convert
to dB, accumulate sum/count/min/max and append to the history, erasing the
front element when the history exceeds 1000 entries; otherwise do nothing.
The log10 library function is passed as a parameter. -/
def EnhancedSinrCallback (log10 : ℚ → ℚ) (s : SinrState) (linearSinr : ℚ) : SinrState :=
  if linearSinr > 0 then
    let sinrDb := 10 * log10 linearSinr
    let m := s.metrics
    let m2 : ChannelMetrics :=
      { m with
        sumSinrDb := m.sumSinrDb + sinrDb
        samples := m.samples + 1
        maxSinr := max m.maxSinr sinrDb
        minSinr := min m.minSinr sinrDb }
    let h2 := s.history ++ [sinrDb]
    let h3 := if h2.length > 1000 then h2.tail else h2
    ⟨m2, h3⟩
  else s

/-- Scenario selector, mirroring enum ScenarioType. -/
inductive ScenarioType where
  | DENSE_URBAN
  | SPARSE_SUBURBAN
deriving DecidableEq

/-- The trigonometric primitives of cmath used by the layout code, abstracted:
the cos and sin functions and the M_PI constant. -/
structure TrigOps where
  cos : ℚ → ℚ
  sin : ℚ → ℚ
  pi : ℚ

/-- CreateOptimizedCellLayout (lines 122-180): scale the ISD by the scenario
factor, then place points by the template keyed to the cell count; the switch
falls through to the 9-cell template for any unlisted count. -/
def CreateOptimizedCellLayout (T : TrigOps) (numCells : ℕ) (ISD baseHeight : ℚ)
    (scenario : ScenarioType) : List (ℚ × ℚ × ℚ) :=
  let effectiveISD := if scenario = ScenarioType.DENSE_URBAN then ISD * (7/10) else ISD * (13/10)
  if numCells = 1 then
    [(0, 0, baseHeight)]
  else if numCells = 3 then
    let r := effectiveISD * (577/1000)
    [(0, r, baseHeight),
     (-(r * (866/1000)), -(r * (1/2)), baseHeight),
     (r * (866/1000), -(r * (1/2)), baseHeight)]
  else if numCells = 5 then
    let offset := effectiveISD * (7/10)
    [(0, 0, baseHeight),
     (offset, 0, baseHeight),
     (-offset, 0, baseHeight),
     (0, offset, baseHeight),
     (0, -offset, baseHeight)]
  else if numCells = 7 then
    let r := effectiveISD * (6/10)
    (0, 0, baseHeight) ::
      (List.range 6).map (fun i =>
        (r * T.cos (i * T.pi / 3), r * T.sin (i * T.pi / 3), baseHeight))
  else
    let r := effectiveISD * (65/100)
    (0, 0, baseHeight) ::
      (List.range 8).map (fun i =>
        (r * T.cos (i * T.pi / 4), r * T.sin (i * T.pi / 4), baseHeight))

/-- Traffic classes distinguished by destination port. -/
inductive TrafficClass where
  | eMBB
  | URLLC
deriving DecidableEq

/-- numEmbbUEs (line 389): the uint32 cast of embbRatio * numUEs truncates the
nonnegative product toward zero, i.e. takes its floor. -/
def numEmbbUEs (embbRatio : ℚ) (numUEs : ℕ) : ℕ := ⌊embbRatio * numUEs⌋₊

/-- Classification loop (lines 393-401): a UE whose creation index is below
numEmbbUEs goes to the eMBB containers, the rest to the URLLC containers. -/
def ueTrafficClass (embbRatio : ℚ) (numUEs i : ℕ) : TrafficClass :=
  if i < numEmbbUEs embbRatio numUEs then TrafficClass.eMBB else TrafficClass.URLLC

/-- Creation indices collected into the eMBB containers, in loop order. -/
def embbIndices (embbRatio : ℚ) (numUEs : ℕ) : List ℕ :=
  (List.range numUEs).filter (fun i => decide (ueTrafficClass embbRatio numUEs i = TrafficClass.eMBB))

/-- Creation indices collected into the URLLC containers, in loop order. -/
def urllcIndices (embbRatio : ℚ) (numUEs : ℕ) : List ℕ :=
  (List.range numUEs).filter (fun i => decide (ueTrafficClass embbRatio numUEs i = TrafficClass.URLLC))

/-- Rate allocation (lines 402-413): with no eMBB UEs the per-UE rate is the
uint64 cast of 10e6; otherwise the fair share budget/n is clamped to
[5e6, 20e6] and cast to uint64 (truncation toward zero, which on the clamped
positive value is the floor). -/
def allocateEmbbRate (embbBudgetBps : ℚ) (nEmbb : ℕ) : ℕ :=
  if 0 < nEmbb then
    let fairShare := embbBudgetBps / (nEmbb : ℚ)
    let clamped := max (5 * 10^6) (min fairShare (2 * 10^7))
    ⌊clamped⌋₊
  else 10^7

/-- The final per-flow counters reported by FlowMonitor, restricted to the
fields the scoring pass reads.  The packet counters txPackets and rxPackets
are uint32 values (naturals below 2^32), the byte counter is uint64; times
are seconds as rationals. -/
structure FlowStats where
  txPackets : ℕ
  rxPackets : ℕ
  rxBytes : ℕ
  delaySum : ℚ
  jitterSum : ℚ
  timeFirstTx : ℚ
  timeLastRx : ℚ
deriving DecidableEq

/-- lostPackets (line 610): fs.txPackets - fs.rxPackets computed on the
uint32 FlowStats packet counters, i.e. the difference modulo 2^32, whose
already-wrapped value is then zero-extended into the uint64 variable. -/
def lostPackets (fs : FlowStats) : ℕ :=
  (fs.txPackets + 2^32 - fs.rxPackets) % 2^32

/-- packetLossRatio (lines 611-612): 100 * lost / tx, or 0 when tx = 0. -/
def packetLossRatio (fs : FlowStats) : ℚ :=
  if 0 < fs.txPackets then 100 * (lostPackets fs : ℚ) / (fs.txPackets : ℚ) else 0

/-- throughput in Mbps (lines 614-622): rxBytes * 8 / (duration * 1e6) when
rxPackets > 0 and the duration timeLastRx - timeFirstTx is positive, else the
initializer 0. -/
def throughput (fs : FlowStats) : ℚ :=
  if 0 < fs.rxPackets then
    let flowDuration := fs.timeLastRx - fs.timeFirstTx
    if 0 < flowDuration then (fs.rxBytes : ℚ) * 8 / (flowDuration * 10^6) else 0
  else 0

/-- meanDelay in ms (line 623): delaySum / rxPackets * 1000 when
rxPackets > 0, else the initializer 0. -/
def meanDelay (fs : FlowStats) : ℚ :=
  if 0 < fs.rxPackets then fs.delaySum / (fs.rxPackets : ℚ) * 1000 else 0

/-- meanJitter in ms (lines 625-627): jitterSum / (rxPackets - 1) * 1000 when
rxPackets > 1, else the initializer 0. -/
def meanJitter (fs : FlowStats) : ℚ :=
  if 1 < fs.rxPackets then fs.jitterSum / ((fs.rxPackets : ℚ) - 1) * 1000 else 0

/-- QoE score (lines 640-652): start at 100, apply the class-specific
threshold penalties by sequential multiplication, then clamp to [0, 100]. -/
def qoeScore (isEmbb : Bool) (throughputMbps meanDelayMs lossRatioPct meanJitterMs : ℚ) : ℚ :=
  let q0 : ℚ := 100
  let q3 :=
    if isEmbb then
      let q1 := if throughputMbps < 25 then q0 * (throughputMbps / 25) else q0
      let q2 := if meanDelayMs > 20 then q1 * (20 / meanDelayMs) else q1
      if lossRatioPct > 1 then q2 * (1 / lossRatioPct) else q2
    else
      let q1 := if meanDelayMs > 5 then q0 * (5 / meanDelayMs) else q0
      let q2 := if lossRatioPct > 1/10 then q1 * ((1/10) / lossRatioPct) else q1
      if meanJitterMs > 2 then q2 * (2 / meanJitterMs) else q2
  max 0 (min 100 q3)

/-- avgSinr (lines 593-594): sumSinrDb / samples when samples > 0, else 0. -/
def avgSinr (m : ChannelMetrics) : ℚ :=
  if 0 < m.samples then m.sumSinrDb / (m.samples : ℚ) else 0

/-- Reliability score (lines 655-665): start at 100; only when the UE has SINR
samples, penalize a min-max range above 20 dB and an average below 10 dB;
finally clamp to [0, 100]. -/
def reliabilityScore (m : ChannelMetrics) : ℚ :=
  let r0 : ℚ := 100
  let r2 :=
    if 0 < m.samples then
      let sinrRange := m.maxSinr - m.minSinr
      let r1 := if sinrRange > 20 then r0 * (20 / sinrRange) else r0
      if avgSinr m < 10 then r1 * (avgSinr m / 10) else r1
    else r0
  max 0 (min 100 r2)

/-- Maximum per-cell throughput (lines 714-717): fold of max over the cell
summaries, seeded with 0. -/
def maxCellThroughput (cellThroughputs : List ℚ) : ℚ :=
  cellThroughputs.foldl max 0

/-- LoadBalance (lines 747-748): cellThroughput / maxCellThroughput * 100 when
the maximum is positive, else 0. -/
def loadBalance (cellThroughputs : List ℚ) (cellThroughput : ℚ) : ℚ :=
  if 0 < maxCellThroughput cellThroughputs then
    cellThroughput / maxCellThroughput cellThroughputs * 100
  else 0

/-- C1: for a URLLC flow the QoE score is the clamp to [0,100] of 100 times
the product of the three independent strict-threshold factors 5/meanDelay
(when meanDelay > 5), 0.1/lossRatio (when lossRatio > 0.1) and 2/meanJitter
(when meanJitter > 2); for an eMBB flow, of the factors throughput/25 (when
throughput < 25), 20/meanDelay (when meanDelay > 20) and 1/lossRatio (when
lossRatio > 1); and a URLLC flow with meanDelay exactly 5 ms receives no
delay penalty, because the threshold comparison is strict. -/
theorem C1_qoeScore_spec (t d loss j : ℚ) :
    (qoeScore true t d loss j
      = max 0 (min 100 (100 * (if t < 25 then t / 25 else 1)
          * (if d > 20 then 20 / d else 1) * (if loss > 1 then 1 / loss else 1))))
    ∧ (qoeScore false t d loss j
      = max 0 (min 100 (100 * (if d > 5 then 5 / d else 1)
          * (if loss > 1/10 then (1/10) / loss else 1) * (if j > 2 then 2 / j else 1))))
    ∧ (qoeScore false t 5 loss j
      = max 0 (min 100 (100 * (if loss > 1/10 then (1/10) / loss else 1)
          * (if j > 2 then 2 / j else 1)))) := by
  refine ⟨?_, ?_, ?_⟩
  · show (let q0 : ℚ := 100
      let q1 := if t < 25 then q0 * (t / 25) else q0
      let q2 := if d > 20 then q1 * (20 / d) else q1
      max 0 (min 100 (if loss > 1 then q2 * (1 / loss) else q2))) = _
    dsimp only
    split_ifs <;> ring_nf
  · show (let q0 : ℚ := 100
      let q1 := if d > 5 then q0 * (5 / d) else q0
      let q2 := if loss > 1/10 then q1 * ((1/10) / loss) else q1
      max 0 (min 100 (if j > 2 then q2 * (2 / j) else q2))) = _
    dsimp only
    split_ifs <;> ring_nf
  · show (let q0 : ℚ := 100
      let q1 := if (5:ℚ) > 5 then q0 * (5 / 5) else q0
      let q2 := if loss > 1/10 then q1 * ((1/10) / loss) else q1
      max 0 (min 100 (if j > 2 then q2 * (2 / j) else q2))) = _
    have h5 : ¬ ((5:ℚ) > 5) := lt_irrefl 5
    dsimp only
    rw [if_neg h5]
    split_ifs <;> ring_nf

/-- C2 (amended): for every flow whose UE has at least one SINR sample, the
reliability score is the clamp to [0,100] of 100 times the factor
20/(maxSinr - minSinr) (when the range exceeds 20 dB) times the factor
avgSinr/10 (when the average SINR is below 10 dB, possibly negative before
clamping); and for every flow whatsoever the score lies in [0,100]. -/
theorem C2_reliabilityScore_spec (m : ChannelMetrics) :
    (0 < m.samples →
      reliabilityScore m
        = max 0 (min 100 (100
            * (if m.maxSinr - m.minSinr > 20 then 20 / (m.maxSinr - m.minSinr) else 1)
            * (if avgSinr m < 10 then avgSinr m / 10 else 1))))
    ∧ 0 ≤ reliabilityScore m ∧ reliabilityScore m ≤ 100 := by
  refine ⟨fun hs => ?_, le_max_left _ _, max_le (by norm_num) (min_le_left _ _)⟩
  show (let r0 : ℚ := 100
    let r2 :=
      if 0 < m.samples then
        let r1 := if m.maxSinr - m.minSinr > 20 then r0 * (20 / (m.maxSinr - m.minSinr)) else r0
        if avgSinr m < 10 then r1 * (avgSinr m / 10) else r1
      else r0
    max 0 (min 100 r2)) = _
  dsimp only
  rw [if_pos hs]
  split_ifs <;> ring_nf

/-- C2 witness: a UE with one 5 dB sample satisfies the hypothesis and its
reliability score evaluates to the claimed clamped product, namely 50. -/
theorem C2_reliabilityScore_spec_witness :
    (0:ℕ) < 1
    ∧ reliabilityScore ⟨5, 0, 0, 1, 5, 5⟩
        = max 0 (min 100 (100
            * (if (5:ℚ) - 5 > 20 then 20 / ((5:ℚ) - 5) else 1)
            * (if avgSinr ⟨5, 0, 0, 1, 5, 5⟩ < 10 then avgSinr ⟨5, 0, 0, 1, 5, 5⟩ / 10 else 1)))
    ∧ reliabilityScore ⟨5, 0, 0, 1, 5, 5⟩ = 50 := by
  refine ⟨by norm_num, (C2_reliabilityScore_spec ⟨5, 0, 0, 1, 5, 5⟩).1 (by norm_num), ?_⟩
  norm_num [reliabilityScore, avgSinr]

/-- C2 counterexample: a flow whose UE received no positive SINR sample has the
default metrics (samples = 0, avgSinr = 0 < 10), yet its reliability score is
100, not the 0 the unguarded claim formula (multiplying by avgSinr/10 whenever
avgSinr < 10) would give: the avgSinr penalty only applies when samples > 0. -/
theorem C2_reliabilityScore_counterexample :
    avgSinr initialChannelMetrics < 10
    ∧ ¬ (initialChannelMetrics.maxSinr - initialChannelMetrics.minSinr > 20)
    ∧ max 0 (min 100 (100 * 1 * (avgSinr initialChannelMetrics / 10))) = 0
    ∧ reliabilityScore initialChannelMetrics = 100 := by
  norm_num [reliabilityScore, avgSinr, initialChannelMetrics]

/-- C3 (amended): allocateEmbbRate returns exactly 10e6 bps when the eMBB UE
count is 0, and otherwise returns the integer floor of budget/count clamped to
[5e6, 20e6] bps, a value itself within [5e6, 20e6]; in particular for budget
2e8 bps and 50 UEs the 4 Mbps fair share is clamped up to the 5 Mbps floor. -/
theorem C3_allocateEmbbRate_spec (b : ℚ) (n : ℕ) :
    (n = 0 → allocateEmbbRate b n = 10^7)
    ∧ (0 < n →
        allocateEmbbRate b n = ⌊max (5 * 10^6) (min (b / (n : ℚ)) (2 * 10^7))⌋₊
        ∧ 5 * 10^6 ≤ allocateEmbbRate b n ∧ allocateEmbbRate b n ≤ 2 * 10^7)
    ∧ allocateEmbbRate (2 * 10^8) 50 = 5 * 10^6 := by
  refine ⟨fun h0 => by simp [allocateEmbbRate, h0], fun hn => ⟨?_, ?_, ?_⟩, ?_⟩
  · simp [allocateEmbbRate, hn]
  · rw [show allocateEmbbRate b n = ⌊max (5 * 10^6) (min (b / (n : ℚ)) (2 * 10^7))⌋₊ from
      by simp [allocateEmbbRate, hn]]
    have h5 : ((5 * 10^6 : ℕ) : ℚ) ≤ max (5 * 10^6) (min (b / (n : ℚ)) (2 * 10^7)) :=
      le_trans (by norm_num) (le_max_left _ _)
    exact Nat.le_floor h5
  · rw [show allocateEmbbRate b n = ⌊max (5 * 10^6) (min (b / (n : ℚ)) (2 * 10^7))⌋₊ from
      by simp [allocateEmbbRate, hn]]
    have hub : max (5 * 10^6) (min (b / (n : ℚ)) (2 * 10^7)) ≤ ((2 * 10^7 : ℕ) : ℚ) :=
      max_le (by norm_num) (le_trans (min_le_right _ _) (by norm_num))
    calc ⌊max (5 * 10^6) (min (b / (n : ℚ)) (2 * 10^7))⌋₊
        ≤ ⌊((2 * 10^7 : ℕ) : ℚ)⌋₊ := Nat.floor_le_floor hub
      _ = 2 * 10^7 := Nat.floor_natCast _
  · have : max (5 * 10^6 : ℚ) (min ((2 * 10^8 : ℚ) / (50 : ℚ)) (2 * 10^7)) = 5 * 10^6 := by
      norm_num
    simp only [allocateEmbbRate, show (0:ℕ) < 50 from by norm_num, if_pos]
    rw [show ((50:ℕ) : ℚ) = 50 from by norm_num, this]
    norm_num [Nat.floor_eq_iff]

/-- C3 witness: at budget 2e8 bps and 50 UEs the hypothesis 0 < 50 holds and
the allocator returns the floor of the clamped fair share, which is the 5 Mbps
floor itself. -/
theorem C3_allocateEmbbRate_spec_witness :
    (0:ℕ) < 50
    ∧ allocateEmbbRate (2 * 10^8) 50 = ⌊max (5 * 10^6) (min ((2 * 10^8 : ℚ) / (50 : ℚ)) (2 * 10^7))⌋₊
    ∧ allocateEmbbRate (2 * 10^8) 50 = 5 * 10^6 :=
  ⟨by norm_num, ((C3_allocateEmbbRate_spec (2 * 10^8) 50).2.1 (by norm_num)).1,
    (C3_allocateEmbbRate_spec (2 * 10^8) 50).2.2⟩

/-- C3 counterexample: for budget 2e8 bps and 12 UEs the clamped fair share is
50000000/3 = 16666666.67 bps, but allocateEmbbRate returns the uint64
truncation 16666666, so the function does not return the clamped fair share
itself as the claim states. -/
theorem C3_allocateEmbbRate_counterexample :
    max (5 * 10^6 : ℚ) (min ((2 * 10^8 : ℚ) / (12 : ℚ)) (2 * 10^7)) = 50000000 / 3
    ∧ allocateEmbbRate (2 * 10^8) 12 = 16666666
    ∧ ((allocateEmbbRate (2 * 10^8) 12 : ℚ)) ≠ 50000000 / 3 := by
  refine ⟨by norm_num, ?_, ?_⟩
  · simp only [allocateEmbbRate, show (0:ℕ) < 12 from by norm_num, if_pos]
    rw [show ((12:ℕ) : ℚ) = 12 from by norm_num,
      show max (5 * 10^6 : ℚ) (min ((2 * 10^8 : ℚ) / (12 : ℚ)) (2 * 10^7)) = 50000000 / 3 from
        by norm_num]
    rw [Nat.floor_eq_iff (by norm_num)]
    norm_num
  · rw [show allocateEmbbRate (2 * 10^8) 12 = 16666666 from ?_]
    · norm_num
    · simp only [allocateEmbbRate, show (0:ℕ) < 12 from by norm_num, if_pos]
      rw [show ((12:ℕ) : ℚ) = 12 from by norm_num,
        show max (5 * 10^6 : ℚ) (min ((2 * 10^8 : ℚ) / (12 : ℚ)) (2 * 10^7)) = 50000000 / 3 from
          by norm_num]
      rw [Nat.floor_eq_iff (by norm_num)]
      norm_num

/-- C4: for every supported cell count in {1,3,5,7,9} the generated layout has
exactly that many points; any other count silently yields the same layout as
the 9-cell template; and whenever the template has a center point (counts
1, 5, 7, 9, and every unsupported count via the fallback) point 0 is exactly
(0, 0, height). -/
theorem C4_cellLayout_spec (T : TrigOps) (ISD hgt : ℚ) (sc : ScenarioType) (n : ℕ) :
    (n = 1 ∨ n = 3 ∨ n = 5 ∨ n = 7 ∨ n = 9 →
      (CreateOptimizedCellLayout T n ISD hgt sc).length = n)
    ∧ (¬ (n = 1 ∨ n = 3 ∨ n = 5 ∨ n = 7 ∨ n = 9) →
      CreateOptimizedCellLayout T n ISD hgt sc = CreateOptimizedCellLayout T 9 ISD hgt sc)
    ∧ (n = 1 ∨ n = 5 ∨ n = 7 ∨ n = 9 ∨ ¬ (n = 1 ∨ n = 3 ∨ n = 5 ∨ n = 7 ∨ n = 9) →
      (CreateOptimizedCellLayout T n ISD hgt sc).head? = some (0, 0, hgt)) := by
  refine ⟨fun hsup => ?_, fun hun => ?_, fun hctr => ?_⟩
  · rcases hsup with h | h | h | h | h <;> subst h <;>
      simp [CreateOptimizedCellLayout, Function.comp_def]
  · push_neg at hun
    obtain ⟨h1, h3, h5, h7, _⟩ := hun
    simp [CreateOptimizedCellLayout, h1, h3, h5, h7]
  · rcases hctr with h | h | h | h | hun
    · subst h; simp [CreateOptimizedCellLayout]
    · subst h; simp [CreateOptimizedCellLayout]
    · subst h; simp [CreateOptimizedCellLayout]
    · subst h; simp [CreateOptimizedCellLayout]
    · push_neg at hun
      obtain ⟨h1, h3, h5, h7, _⟩ := hun
      simp [CreateOptimizedCellLayout, h1, h3, h5, h7]

/-- C4 witness: with trivial trig primitives, ISD 200 and height 25, the
5-cell layout has 5 points, the unsupported count 2 yields the 9-cell
fallback, and its point 0 is (0, 0, 25). -/
theorem C4_cellLayout_spec_witness :
    (CreateOptimizedCellLayout ⟨fun _ => 0, fun _ => 0, 0⟩ 5 200 25
        ScenarioType.SPARSE_SUBURBAN).length = 5
    ∧ CreateOptimizedCellLayout ⟨fun _ => 0, fun _ => 0, 0⟩ 2 200 25
        ScenarioType.SPARSE_SUBURBAN
      = CreateOptimizedCellLayout ⟨fun _ => 0, fun _ => 0, 0⟩ 9 200 25
        ScenarioType.SPARSE_SUBURBAN
    ∧ (CreateOptimizedCellLayout ⟨fun _ => 0, fun _ => 0, 0⟩ 2 200 25
        ScenarioType.SPARSE_SUBURBAN).head? = some (0, 0, 25) :=
  ⟨(C4_cellLayout_spec ⟨fun _ => 0, fun _ => 0, 0⟩ 200 25 ScenarioType.SPARSE_SUBURBAN 5).1
      (by norm_num),
   (C4_cellLayout_spec ⟨fun _ => 0, fun _ => 0, 0⟩ 200 25 ScenarioType.SPARSE_SUBURBAN 2).2.1
      (by norm_num),
   (C4_cellLayout_spec ⟨fun _ => 0, fun _ => 0, 0⟩ 200 25 ScenarioType.SPARSE_SUBURBAN 2).2.2
      (by norm_num)⟩

/-- Helper: one callback invocation never leaves more than 1000 history
entries behind when at most 1000 were there before. -/
lemma sinrCallback_history_le (log10 : ℚ → ℚ) (s : SinrState) (x : ℚ)
    (h : s.history.length ≤ 1000) :
    (EnhancedSinrCallback log10 s x).history.length ≤ 1000 := by
  unfold EnhancedSinrCallback
  split_ifs with hx
  · dsimp only
    split_ifs with hlen
    · simp only [List.length_tail, List.length_append, List.length_singleton]
      omega
    · simp only [List.length_append, List.length_singleton] at hlen ⊢
      omega
  · exact h

/-- C5: the SINR callback leaves the UE state completely unchanged when the
linear SINR is not positive; when it is positive, it adds 10*log10(linearSinr)
to the running dB sum, increments the sample count, updates the running
min/max, leaves the RSRP/RSRQ sums alone, and appends the dB value to the
bounded history (dropping the oldest entry if the length would exceed 1000). -/
theorem C5_sinrCallback_spec (log10 : ℚ → ℚ) (s : SinrState) (x : ℚ) :
    (x ≤ 0 → EnhancedSinrCallback log10 s x = s)
    ∧ (0 < x →
        (EnhancedSinrCallback log10 s x).metrics.sumSinrDb
            = s.metrics.sumSinrDb + 10 * log10 x
        ∧ (EnhancedSinrCallback log10 s x).metrics.samples = s.metrics.samples + 1
        ∧ (EnhancedSinrCallback log10 s x).metrics.maxSinr
            = max s.metrics.maxSinr (10 * log10 x)
        ∧ (EnhancedSinrCallback log10 s x).metrics.minSinr
            = min s.metrics.minSinr (10 * log10 x)
        ∧ (EnhancedSinrCallback log10 s x).metrics.sumRsrpDbm = s.metrics.sumRsrpDbm
        ∧ (EnhancedSinrCallback log10 s x).metrics.sumRsrqDb = s.metrics.sumRsrqDb
        ∧ (EnhancedSinrCallback log10 s x).history
            = (if (s.history ++ [10 * log10 x]).length > 1000
               then (s.history ++ [10 * log10 x]).tail
               else s.history ++ [10 * log10 x])) := by
  constructor
  · intro hx
    unfold EnhancedSinrCallback
    rw [if_neg (not_lt.mpr hx)]
  · intro hx
    unfold EnhancedSinrCallback
    rw [if_pos hx]
    refine ⟨rfl, rfl, rfl, rfl, rfl, rfl, rfl⟩

/-- C5 witness: with log10 instantiated to the zero function, a sample with
linear SINR 1 on the initial state updates every accumulator as stated, and a
sample with linear SINR 0 is ignored. -/
theorem C5_sinrCallback_spec_witness :
    ((0:ℚ) ≤ 0 ∧ EnhancedSinrCallback (fun _ => 0) initialSinrState 0 = initialSinrState)
    ∧ ((0:ℚ) < 1
        ∧ (EnhancedSinrCallback (fun _ => 0) initialSinrState 1).metrics.samples
            = initialSinrState.metrics.samples + 1) :=
  ⟨⟨le_refl 0, (C5_sinrCallback_spec (fun _ => 0) initialSinrState 0).1 (le_refl 0)⟩,
   ⟨by norm_num,
    ((C5_sinrCallback_spec (fun _ => 0) initialSinrState 1).2 (by norm_num)).2.1⟩⟩

/-- C6: starting from the initial (empty) history, after any finite sequence
of SINR samples the history holds at most 1000 entries; and whenever a
positive sample arrives with the history at full capacity 1000, exactly the
single oldest entry is evicted: the new history is the old one minus its head,
with the new dB value appended at the back. -/
theorem C6_sinrHistory_bounded (log10 : ℚ → ℚ) (samples : List ℚ) :
    ((samples.foldl (EnhancedSinrCallback log10) initialSinrState).history.length ≤ 1000)
    ∧ (∀ (s : SinrState) (x : ℚ), s.history.length = 1000 → 0 < x →
        (EnhancedSinrCallback log10 s x).history = s.history.tail ++ [10 * log10 x]) := by
  constructor
  · have general : ∀ (l : List ℚ) (s : SinrState), s.history.length ≤ 1000 →
        ((l.foldl (EnhancedSinrCallback log10) s).history.length ≤ 1000) := by
      intro l
      induction l with
      | nil => intro s hs; exact hs
      | cons a t ih =>
        intro s hs
        exact ih _ (sinrCallback_history_le log10 s a hs)
    exact general samples initialSinrState (by simp [initialSinrState])
  · intro s x hlen hx
    have hne : s.history ≠ [] := by
      intro hnil
      rw [hnil] at hlen
      simp at hlen
    unfold EnhancedSinrCallback
    rw [if_pos hx]
    dsimp only
    rw [if_pos (by simp [hlen]), List.tail_append_singleton_of_ne_nil hne]

/-- C6 witness: a positive sample arriving with the history at exactly 1000
entries evicts the single oldest entry and appends the new dB value. -/
theorem C6_sinrHistory_bounded_witness :
    (List.replicate 1000 (0:ℚ)).length = 1000
    ∧ (0:ℚ) < 1
    ∧ (EnhancedSinrCallback (fun _ => 0) ⟨{}, List.replicate 1000 (0:ℚ)⟩ 1).history
        = (List.replicate 1000 (0:ℚ)).tail ++ [10 * (fun _ : ℚ => (0:ℚ)) 1] :=
  ⟨by rw [List.length_replicate], by norm_num,
   (C6_sinrHistory_bounded (fun _ => 0) []).2 ⟨{}, List.replicate 1000 (0:ℚ)⟩ 1
     (by rw [List.length_replicate]) (by norm_num)⟩

/-- C7: every derived per-flow ratio defaults to 0 instead of dividing by
zero: the loss ratio is 0 when txPackets = 0; the throughput is 0 when
rxPackets = 0 or the flow duration is nonpositive; the mean delay is 0 when
rxPackets = 0; and the mean jitter is jitterSum/(rxPackets-1)*1000 when
rxPackets > 1 and 0 otherwise. -/
theorem C7_zero_denominator_defaults (fs : FlowStats) :
    (fs.txPackets = 0 → packetLossRatio fs = 0)
    ∧ (fs.rxPackets = 0 → throughput fs = 0)
    ∧ (fs.timeLastRx - fs.timeFirstTx ≤ 0 → throughput fs = 0)
    ∧ (fs.rxPackets = 0 → meanDelay fs = 0)
    ∧ (1 < fs.rxPackets → meanJitter fs = fs.jitterSum / ((fs.rxPackets : ℚ) - 1) * 1000)
    ∧ (fs.rxPackets ≤ 1 → meanJitter fs = 0) := by
  refine ⟨fun h => ?_, fun h => ?_, fun h => ?_, fun h => ?_, fun h => ?_, fun h => ?_⟩
  · simp [packetLossRatio, h]
  · simp [throughput, h]
  · unfold throughput
    split_ifs with h1
    · dsimp only
      rw [if_neg (not_lt.mpr h)]
    · rfl
  · simp [meanDelay, h]
  · simp [meanJitter, h]
  · simp [meanJitter, not_lt.mpr h]

/-- C7 witness: a flow with all counters zero and a degenerate time window
takes every default, and a flow with 3 received packets takes the Bessel-style
jitter denominator 2. -/
theorem C7_zero_denominator_defaults_witness :
    (packetLossRatio ⟨0, 0, 0, 0, 0, 7, 3⟩ = 0
      ∧ throughput ⟨0, 0, 0, 0, 0, 7, 3⟩ = 0
      ∧ meanDelay ⟨0, 0, 0, 0, 0, 7, 3⟩ = 0
      ∧ meanJitter ⟨0, 0, 0, 0, 0, 7, 3⟩ = 0)
    ∧ meanJitter ⟨10, 3, 4200, 0, 6, 0, 2⟩ = 6 / ((3 : ℚ) - 1) * 1000 := by
  refine ⟨⟨?_, ?_, ?_, ?_⟩, ?_⟩
  · exact (C7_zero_denominator_defaults ⟨0, 0, 0, 0, 0, 7, 3⟩).1 rfl
  · exact (C7_zero_denominator_defaults ⟨0, 0, 0, 0, 0, 7, 3⟩).2.1 rfl
  · exact (C7_zero_denominator_defaults ⟨0, 0, 0, 0, 0, 7, 3⟩).2.2.2.1 rfl
  · exact (C7_zero_denominator_defaults ⟨0, 0, 0, 0, 0, 7, 3⟩).2.2.2.2.2 (by norm_num)
  · have h := (C7_zero_denominator_defaults ⟨10, 3, 4200, 0, 6, 0, 2⟩).2.2.2.2.1 (by norm_num)
    simpa using h

/-- Helper: the fold of max is an upper bound of its seed and of every list
element. -/
lemma foldl_max_bounds (l : List ℚ) (a : ℚ) :
    a ≤ l.foldl max a ∧ ∀ s ∈ l, s ≤ l.foldl max a := by
  induction l generalizing a with
  | nil => exact ⟨le_refl a, by simp⟩
  | cons b t ih =>
    refine ⟨?_, ?_⟩
    · exact le_trans (le_max_left a b) (ih (max a b)).1
    · intro s hs
      rcases List.mem_cons.mp hs with h | h
      · subst h
        exact le_trans (le_max_right a s) (ih (max a s)).1
      · exact (ih (max a b)).2 s h

/-- C8 (amended): every cell throughput is bounded by maxCellThroughput, and
provided the maximum cell throughput is positive, the LoadBalance value of a
cell is 100 * cellThroughput / maxCellThroughput, so the cell attaining the
maximum gets exactly 100; when every cell throughput is zero the code instead
emits 0 for every cell. -/
theorem C8_loadBalance_spec (l : List ℚ) (t : ℚ) :
    (∀ s ∈ l, s ≤ maxCellThroughput l)
    ∧ (0 < maxCellThroughput l →
        loadBalance l t = 100 * t / maxCellThroughput l
        ∧ (t = maxCellThroughput l → loadBalance l t = 100))
    ∧ (maxCellThroughput l = 0 → loadBalance l t = 0) := by
  refine ⟨(foldl_max_bounds l 0).2, fun hpos => ⟨?_, fun ht => ?_⟩, fun hz => ?_⟩
  · rw [loadBalance, if_pos hpos]
    ring
  · rw [loadBalance, if_pos hpos, ht, div_self (ne_of_gt hpos)]
    norm_num
  · rw [loadBalance, hz]
    simp

/-- C8 witness: for cell throughputs [3, 1] the maximum 3 is positive, the
bound holds for the member 1, and the cell attaining the maximum has
LoadBalance exactly 100. -/
theorem C8_loadBalance_spec_witness :
    ((1:ℚ) ≤ maxCellThroughput [3, 1])
    ∧ (0:ℚ) < maxCellThroughput [3, 1]
    ∧ loadBalance [3, 1] 3 = 100 * 3 / maxCellThroughput [3, 1]
    ∧ loadBalance [3, 1] 3 = 100 := by
  have hmax : maxCellThroughput [(3:ℚ), 1] = 3 := by
    norm_num [maxCellThroughput]
  refine ⟨(C8_loadBalance_spec [3, 1] 3).1 1 (by norm_num), by rw [hmax]; norm_num, ?_, ?_⟩
  · exact ((C8_loadBalance_spec [3, 1] 3).2.1 (by rw [hmax]; norm_num)).1
  · exact ((C8_loadBalance_spec [3, 1] 3).2.1 (by rw [hmax]; norm_num)).2 (by rw [hmax])

/-- C8 counterexample: when every flow has zero throughput the maximum cell
throughput is 0 and the cell attaining it receives LoadBalance 0, not the
100 the claim promises for the maximum-throughput cell. -/
theorem C8_loadBalance_counterexample :
    maxCellThroughput [(0:ℚ)] = 0
    ∧ (0:ℚ) ∈ [(0:ℚ)]
    ∧ loadBalance [(0:ℚ)] 0 = 0
    ∧ loadBalance [(0:ℚ)] 0 ≠ 100 := by
  norm_num [maxCellThroughput, loadBalance]

/-- Helper: filtering the indices below k out of range N keeps exactly
range k when k ≤ N. -/
lemma filter_range_lt (k N : ℕ) (h : k ≤ N) :
    (List.range N).filter (fun i => decide (i < k)) = List.range k := by
  induction N with
  | zero =>
    have hk : k = 0 := Nat.le_zero.mp h
    simp [hk]
  | succ n ih =>
    rw [List.range_succ, List.filter_append]
    rcases Nat.lt_or_ge n k with hnk | hnk
    · have hk : k = n + 1 := le_antisymm h hnk
      subst hk
      rw [List.filter_eq_self.mpr (fun a ha => by
        simp only [decide_eq_true_eq]
        exact Nat.lt_succ_of_lt (List.mem_range.mp ha))]
      simp [List.range_succ]
    · rw [ih hnk]
      have hn : ¬ (n < k) := Nat.not_lt.mpr hnk
      simp [hn]

/-- Helper: the classification predicate agrees with the index comparison. -/
lemma ueTrafficClass_decide (r : ℚ) (N i : ℕ) :
    (decide (ueTrafficClass r N i = TrafficClass.eMBB) = decide (i < numEmbbUEs r N))
    ∧ (decide (ueTrafficClass r N i = TrafficClass.URLLC) = !decide (i < numEmbbUEs r N)) := by
  unfold ueTrafficClass
  by_cases h : i < numEmbbUEs r N <;> simp [h]

/-- C9: UE classification is a strict prefix split by creation index: a UE is
eMBB exactly when its index is below floor(ratio * ueCount); for any ratio at
most 1 the eMBB containers hold exactly the indices 0..floor(ratio*N)-1 and
the URLLC containers the remaining N - floor(ratio*N) indices; with N = 10 and
ratio 6/10 this gives eMBB indices 0-5 and URLLC indices 6-9. -/
theorem C9_prefix_split (r : ℚ) (N : ℕ) (hr1 : r ≤ 1) :
    numEmbbUEs r N ≤ N
    ∧ (∀ i, ueTrafficClass r N i = TrafficClass.eMBB ↔ i < numEmbbUEs r N)
    ∧ embbIndices r N = List.range (numEmbbUEs r N)
    ∧ (embbIndices r N).length = numEmbbUEs r N
    ∧ (urllcIndices r N).length = N - numEmbbUEs r N := by
  have hkN : numEmbbUEs r N ≤ N := by
    have hrN : r * (N : ℚ) ≤ (N : ℚ) := mul_le_of_le_one_left (Nat.cast_nonneg N) hr1
    calc numEmbbUEs r N = ⌊r * (N : ℚ)⌋₊ := rfl
      _ ≤ ⌊((N : ℕ) : ℚ)⌋₊ := Nat.floor_le_floor hrN
      _ = N := Nat.floor_natCast N
  have hembb : embbIndices r N = List.range (numEmbbUEs r N) := by
    unfold embbIndices
    rw [List.filter_congr (fun i _ => (ueTrafficClass_decide r N i).1)]
    exact filter_range_lt _ _ hkN
  refine ⟨hkN, fun i => ?_, hembb, ?_, ?_⟩
  · unfold ueTrafficClass
    by_cases h : i < numEmbbUEs r N <;> simp [h]
  · rw [hembb, List.length_range]
  · have hsplit := List.length_eq_length_filter_add
      (l := List.range N) (fun i => decide (i < numEmbbUEs r N))
    have hurllc : urllcIndices r N
        = (List.range N).filter (fun i => !decide (i < numEmbbUEs r N)) := by
      unfold urllcIndices
      exact List.filter_congr (fun i _ => (ueTrafficClass_decide r N i).2)
    have hlen : (embbIndices r N).length = numEmbbUEs r N := by
      rw [hembb, List.length_range]
    have hembb' : ((List.range N).filter (fun i => decide (i < numEmbbUEs r N))).length
        = numEmbbUEs r N := by
      rw [filter_range_lt _ _ hkN, List.length_range]
    rw [hurllc]
    rw [List.length_range] at hsplit
    omega

/-- C9 witness: with ratio 6/10 and 10 UEs, floor(6/10 * 10) = 6, the eMBB
containers hold exactly indices 0..5 and the URLLC containers the 4 remaining
indices; index 6 is classified URLLC. -/
theorem C9_prefix_split_witness :
    (6/10 : ℚ) ≤ 1
    ∧ numEmbbUEs (6/10) 10 = 6
    ∧ embbIndices (6/10) 10 = List.range 6
    ∧ (urllcIndices (6/10) 10).length = 4
    ∧ ¬ (ueTrafficClass (6/10) 10 6 = TrafficClass.eMBB) := by
  have h6 : numEmbbUEs (6/10 : ℚ) 10 = 6 := by
    unfold numEmbbUEs
    rw [show (6/10 : ℚ) * (10 : ℕ) = 6 from by norm_num]
    norm_num
  have h := C9_prefix_split (6/10) 10 (by norm_num)
  refine ⟨by norm_num, h6, ?_, ?_, ?_⟩
  · rw [h.2.2.1, h6]
  · rw [h.2.2.2.2, h6]
  · intro hc
    have := (h.2.1 6).mp hc
    rw [h6] at this
    exact absurd this (by norm_num)

/-- C10 (amended): when rxPackets exceeds txPackets, the derived lostPackets
value wraps modulo 2^32, because the FlowStats packet counters are unsigned
32-bit integers and the already-wrapped difference is zero-extended into the
unsigned 64-bit variable: it equals (txPackets - rxPackets) modulo 2^32,
i.e. 2^32 + txPackets - rxPackets, an enormous value exceeding txPackets, and
the resulting packet-loss ratio exceeds 100%; the lostPackets and lossRatio
formulas are only meaningful under the unstated precondition
rxPackets <= txPackets. -/
theorem C10_lostPackets_wraparound (fs : FlowStats) (htx : fs.txPackets < 2^32)
    (hrx : fs.rxPackets < 2^32) (hgt : fs.txPackets < fs.rxPackets) :
    lostPackets fs = 2^32 + fs.txPackets - fs.rxPackets
    ∧ (lostPackets fs : ℤ) = ((fs.txPackets : ℤ) - (fs.rxPackets : ℤ)) % 2^32
    ∧ fs.txPackets < lostPackets fs
    ∧ (0 < fs.txPackets → 100 < packetLossRatio fs) := by
  have hpow : (2:ℕ)^32 = 4294967296 := by norm_num
  have h1 : lostPackets fs = 2^32 + fs.txPackets - fs.rxPackets := by
    unfold lostPackets
    rw [hpow] at *
    omega
  have h3 : fs.txPackets < lostPackets fs := by
    rw [h1, hpow] at *
    omega
  refine ⟨h1, ?_, h3, fun htx0 => ?_⟩
  · have hq : ((lostPackets fs : ℕ) : ℤ) = 2^32 + (fs.txPackets : ℤ) - (fs.rxPackets : ℤ) := by
      rw [h1]
      push_cast [hpow] at *
      omega
    rw [hq]
    have hpowz : (2:ℤ)^32 = 4294967296 := by norm_num
    rw [hpowz] at *
    omega
  · rw [packetLossRatio, if_pos htx0]
    have htxQ : (0:ℚ) < (fs.txPackets : ℚ) := by exact_mod_cast htx0
    rw [lt_div_iff₀ htxQ]
    have : (fs.txPackets : ℚ) < (lostPackets fs : ℚ) := by exact_mod_cast h3
    nlinarith

/-- C10 witness: a flow reporting 1000 transmitted but 1001 received packets
yields a wrapped lost-packet count of 2^32 - 1 and a loss ratio above 100%. -/
theorem C10_lostPackets_wraparound_witness :
    lostPackets ⟨1000, 1001, 0, 0, 0, 0, 0⟩ = 2^32 + 1000 - 1001
    ∧ 100 < packetLossRatio ⟨1000, 1001, 0, 0, 0, 0, 0⟩ :=
  ⟨(C10_lostPackets_wraparound ⟨1000, 1001, 0, 0, 0, 0, 0⟩ (by norm_num) (by norm_num)
      (by norm_num)).1,
   (C10_lostPackets_wraparound ⟨1000, 1001, 0, 0, 0, 0, 0⟩ (by norm_num) (by norm_num)
      (by norm_num)).2.2.2 (by norm_num)⟩

/-- C10 counterexample: the FlowStats packet counters are unsigned 32-bit, so
at txPackets = 1000, rxPackets = 1001 the program computes the wrapped value
2^32 - 1 = 4294967295, not the (txPackets - rxPackets) modulo 2^64 value
2^64 - 1 = 18446744073709551615 the claim asserts. -/
theorem C10_lostPackets_wraparound_counterexample :
    lostPackets ⟨1000, 1001, 0, 0, 0, 0, 0⟩ = 4294967295
    ∧ ((1000:ℤ) - 1001) % 2^64 = 18446744073709551615
    ∧ ((lostPackets ⟨1000, 1001, 0, 0, 0, 0, 0⟩ : ℤ)) ≠ ((1000:ℤ) - 1001) % 2^64 := by
  refine ⟨by decide, by decide, ?_⟩
  rw [show lostPackets ⟨1000, 1001, 0, 0, 0, 0, 0⟩ = 4294967295 from by decide]
  decide

end NrMultiCell
